import Mathlib

/-!
Shallow embedding of the vector_lib core: the type and layout model of
src/vector/types.h (matrix union views, euler-order codec) and the
quaternion algebra contract declared in src/vector/quaternion.h.
Floating-point lanes are modelled as real numbers; machine bit patterns of
storage cells are modelled as natural numbers.
-/

/-- Bit pattern stored in one 32-bit cell (a float32 or int32 lane). -/
abbrev Bits32 := Nat

/-- The 64 bytes of storage behind the matrix_t union of types.h lines
78-93, as 16 consecutive 32-bit cells; the matrix is row major, so cell
4*r+c holds element (row r, column c). -/
structure matrix_t where
  mem : Fin 16 → Bits32

/-- Cell index of the named component field mRC of the comp view: the
struct matrix_component_t (types.h lines 80-86) declares the sixteen
float32 fields m00, m01, ..., m33 in row order with no padding, so field
(r, c) is the (4*r+c)-th cell. -/
def compIndex (r c : Fin 4) : Fin 16 := ⟨4 * r.val + c.val, by omega⟩

/-- Cell index of arr[i] of the flat-array view (types.h line 88). -/
def arrIndex (i : Fin 16) : Fin 16 := i

/-- Cell index of frow[r][c] of the 2-D view: a C float32_t[4][4] stores
row r contiguously at cell offset 4*r, column c inside it (types.h line
90). -/
def frowIndex (r c : Fin 4) : Fin 16 := ⟨4 * r.val + c.val, by omega⟩

/-- Cell index of lane c of the row vector row[r]: vector_t row[4] places
vector r at cell offset 4*r, and a vector_t holds lanes x, y, z, w at
cell offsets 0, 1, 2, 3 (types.h lines 59-64 and 92). -/
def rowLaneIndex (r c : Fin 4) : Fin 16 := ⟨4 * r.val + c.val, by omega⟩

/-- Read element (r, c) through the named-field comp view. -/
def matrix_read_comp (m : matrix_t) (r c : Fin 4) : Bits32 := m.mem (compIndex r c)

/-- Read cell i through the flat-array view. -/
def matrix_read_arr (m : matrix_t) (i : Fin 16) : Bits32 := m.mem (arrIndex i)

/-- Read element (r, c) through the 2-D frow view. -/
def matrix_read_frow (m : matrix_t) (r c : Fin 4) : Bits32 := m.mem (frowIndex r c)

/-- Read lane c of row vector r through the row view. -/
def matrix_read_row (m : matrix_t) (r c : Fin 4) : Bits32 := m.mem (rowLaneIndex r c)

/-- Write element (r, c) through the named-field comp view. -/
def matrix_write_comp (m : matrix_t) (r c : Fin 4) (v : Bits32) : matrix_t :=
  ⟨Function.update m.mem (compIndex r c) v⟩

/-- Write cell i through the flat-array view. -/
def matrix_write_arr (m : matrix_t) (i : Fin 16) (v : Bits32) : matrix_t :=
  ⟨Function.update m.mem (arrIndex i) v⟩

/-- Write element (r, c) through the 2-D frow view. -/
def matrix_write_frow (m : matrix_t) (r c : Fin 4) (v : Bits32) : matrix_t :=
  ⟨Function.update m.mem (frowIndex r c) v⟩

/-- Write lane c of row vector r through the row view. -/
def matrix_write_row (m : matrix_t) (r c : Fin 4) (v : Bits32) : matrix_t :=
  ⟨Function.update m.mem (rowLaneIndex r c) v⟩

/-- types.h line 111:
#define VECTOR_GETEULERORDER(i, p, r, f) ((((((i << 1) + p) << 1) + r) << 1) + f) -/
def VECTOR_GETEULERORDER (i p r f : Nat) : Nat :=
  ((((((i <<< 1) + p) <<< 1) + r) <<< 1) + f)

/-- types.h line 113. -/
def VECTOR_EULER_STATICFRAME : Nat := 0

/-- types.h line 114. -/
def VECTOR_EULER_ROTATEFRAME : Nat := 1

/-- types.h line 115. -/
def VECTOR_EULER_NOREPEAT : Nat := 0

/-- types.h line 116. -/
def VECTOR_EULER_REPEAT : Nat := 1

/-- types.h line 117. -/
def VECTOR_EULER_EVEN : Nat := 0

/-- types.h line 118. -/
def VECTOR_EULER_ODD : Nat := 1

/-- The packing formula exactly as the spec words it, for the refinement
comparison with the source macro: order = (((axis shl 1 or parity) shl 1
or repeat) shl 1 or frame), with bitwise or. -/
def eulerOrderSpecFormula (axis parity rep frame : Nat) : Nat :=
  ((((axis <<< 1) ||| parity) <<< 1) ||| rep) <<< 1 ||| frame

/-- Modelled from the spec: the unpack half of the euler-order codec of
spec section 4.4 is not under src/ (only the packing macro is); decoding
recovers the initial axis from the bits above the three flag bits. -/
def eulerDecodeAxis (o : Nat) : Nat := o >>> 3

/-- Modelled from the spec: unpack half of the euler-order codec (not
under src/); the parity flag sits in bit 2. -/
def eulerDecodeParity (o : Nat) : Nat := (o >>> 2) &&& 1

/-- Modelled from the spec: unpack half of the euler-order codec (not
under src/); the repetition flag sits in bit 1. -/
def eulerDecodeRepeat (o : Nat) : Nat := (o >>> 1) &&& 1

/-- Modelled from the spec: unpack half of the euler-order codec (not
under src/); the frame flag sits in bit 0. -/
def eulerDecodeFrame (o : Nat) : Nat := o &&& 1

/-- types.h line 130. -/
def EULER_DEFAULTORDER : Nat :=
  VECTOR_GETEULERORDER 0 VECTOR_EULER_EVEN VECTOR_EULER_NOREPEAT VECTOR_EULER_STATICFRAME

/-- types.h line 132. -/
def EULER_XYZs : Nat :=
  VECTOR_GETEULERORDER 0 VECTOR_EULER_EVEN VECTOR_EULER_NOREPEAT VECTOR_EULER_STATICFRAME

/-- types.h line 133. -/
def EULER_XYXs : Nat :=
  VECTOR_GETEULERORDER 0 VECTOR_EULER_EVEN VECTOR_EULER_REPEAT VECTOR_EULER_STATICFRAME

/-- types.h line 134. -/
def EULER_XZYs : Nat :=
  VECTOR_GETEULERORDER 0 VECTOR_EULER_ODD VECTOR_EULER_NOREPEAT VECTOR_EULER_STATICFRAME

/-- types.h line 135. -/
def EULER_XZXs : Nat :=
  VECTOR_GETEULERORDER 0 VECTOR_EULER_ODD VECTOR_EULER_REPEAT VECTOR_EULER_STATICFRAME

/-- types.h line 136. -/
def EULER_YZXs : Nat :=
  VECTOR_GETEULERORDER 1 VECTOR_EULER_EVEN VECTOR_EULER_NOREPEAT VECTOR_EULER_STATICFRAME

/-- types.h line 137. -/
def EULER_YZYs : Nat :=
  VECTOR_GETEULERORDER 1 VECTOR_EULER_EVEN VECTOR_EULER_REPEAT VECTOR_EULER_STATICFRAME

/-- types.h line 138. -/
def EULER_YXZs : Nat :=
  VECTOR_GETEULERORDER 1 VECTOR_EULER_ODD VECTOR_EULER_NOREPEAT VECTOR_EULER_STATICFRAME

/-- types.h line 139. -/
def EULER_YXYs : Nat :=
  VECTOR_GETEULERORDER 1 VECTOR_EULER_ODD VECTOR_EULER_REPEAT VECTOR_EULER_STATICFRAME

/-- types.h line 140. -/
def EULER_ZXYs : Nat :=
  VECTOR_GETEULERORDER 2 VECTOR_EULER_EVEN VECTOR_EULER_NOREPEAT VECTOR_EULER_STATICFRAME

/-- types.h line 141. -/
def EULER_ZXZs : Nat :=
  VECTOR_GETEULERORDER 2 VECTOR_EULER_EVEN VECTOR_EULER_REPEAT VECTOR_EULER_STATICFRAME

/-- types.h line 142. -/
def EULER_ZYXs : Nat :=
  VECTOR_GETEULERORDER 2 VECTOR_EULER_ODD VECTOR_EULER_NOREPEAT VECTOR_EULER_STATICFRAME

/-- types.h line 143. -/
def EULER_ZYZs : Nat :=
  VECTOR_GETEULERORDER 2 VECTOR_EULER_ODD VECTOR_EULER_REPEAT VECTOR_EULER_STATICFRAME

/-- types.h line 145. -/
def EULER_ZYXr : Nat :=
  VECTOR_GETEULERORDER 0 VECTOR_EULER_EVEN VECTOR_EULER_NOREPEAT VECTOR_EULER_ROTATEFRAME

/-- types.h line 146. -/
def EULER_XYXr : Nat :=
  VECTOR_GETEULERORDER 0 VECTOR_EULER_EVEN VECTOR_EULER_REPEAT VECTOR_EULER_ROTATEFRAME

/-- types.h line 147. -/
def EULER_YZXr : Nat :=
  VECTOR_GETEULERORDER 0 VECTOR_EULER_ODD VECTOR_EULER_NOREPEAT VECTOR_EULER_ROTATEFRAME

/-- types.h line 148. -/
def EULER_XZXr : Nat :=
  VECTOR_GETEULERORDER 0 VECTOR_EULER_ODD VECTOR_EULER_REPEAT VECTOR_EULER_ROTATEFRAME

/-- types.h line 149. -/
def EULER_XZYr : Nat :=
  VECTOR_GETEULERORDER 1 VECTOR_EULER_EVEN VECTOR_EULER_NOREPEAT VECTOR_EULER_ROTATEFRAME

/-- types.h line 150. -/
def EULER_YZYr : Nat :=
  VECTOR_GETEULERORDER 1 VECTOR_EULER_EVEN VECTOR_EULER_REPEAT VECTOR_EULER_ROTATEFRAME

/-- types.h line 151. -/
def EULER_ZXYr : Nat :=
  VECTOR_GETEULERORDER 1 VECTOR_EULER_ODD VECTOR_EULER_NOREPEAT VECTOR_EULER_ROTATEFRAME

/-- types.h line 152. -/
def EULER_YXYr : Nat :=
  VECTOR_GETEULERORDER 1 VECTOR_EULER_ODD VECTOR_EULER_REPEAT VECTOR_EULER_ROTATEFRAME

/-- types.h line 153. -/
def EULER_YXZr : Nat :=
  VECTOR_GETEULERORDER 2 VECTOR_EULER_EVEN VECTOR_EULER_NOREPEAT VECTOR_EULER_ROTATEFRAME

/-- types.h line 154. -/
def EULER_ZXZr : Nat :=
  VECTOR_GETEULERORDER 2 VECTOR_EULER_EVEN VECTOR_EULER_REPEAT VECTOR_EULER_ROTATEFRAME

/-- types.h line 155. -/
def EULER_XYZr : Nat :=
  VECTOR_GETEULERORDER 2 VECTOR_EULER_ODD VECTOR_EULER_NOREPEAT VECTOR_EULER_ROTATEFRAME

/-- types.h line 156. -/
def EULER_ZYZr : Nat :=
  VECTOR_GETEULERORDER 2 VECTOR_EULER_ODD VECTOR_EULER_REPEAT VECTOR_EULER_ROTATEFRAME

/-- The 24 named euler-order constants in their source declaration order
(types.h lines 132-156). -/
def eulerNamedOrders : List Nat :=
  [EULER_XYZs, EULER_XYXs, EULER_XZYs, EULER_XZXs,
   EULER_YZXs, EULER_YZYs, EULER_YXZs, EULER_YXYs,
   EULER_ZXYs, EULER_ZXZs, EULER_ZYXs, EULER_ZYZs,
   EULER_ZYXr, EULER_XYXr, EULER_YZXr, EULER_XZXr,
   EULER_XZYr, EULER_YZYr, EULER_ZXYr, EULER_YXYr,
   EULER_YXZr, EULER_ZXZr, EULER_XYZr, EULER_ZYZr]

/-- The (axis, parity, repeat, frame) argument tuples of the 24 named
constants, in the same source declaration order. -/
def eulerNamedTuples : List (Nat × Nat × Nat × Nat) :=
  [(0, 0, 0, 0), (0, 0, 1, 0), (0, 1, 0, 0), (0, 1, 1, 0),
   (1, 0, 0, 0), (1, 0, 1, 0), (1, 1, 0, 0), (1, 1, 1, 0),
   (2, 0, 0, 0), (2, 0, 1, 0), (2, 1, 0, 0), (2, 1, 1, 0),
   (0, 0, 0, 1), (0, 0, 1, 1), (0, 1, 0, 1), (0, 1, 1, 1),
   (1, 0, 0, 1), (1, 0, 1, 1), (1, 1, 0, 1), (1, 1, 1, 1),
   (2, 0, 0, 1), (2, 0, 1, 1), (2, 1, 0, 1), (2, 1, 1, 1)]

/-- Claim C1: for every matrix value and every element position (r, c),
the four access paths of matrix_t (named component field, flat array cell
4*r+c, 2-D element frow[r][c], lane c of row vector r) resolve to the
same 32-bit cell, and writing through any one view then reading through
any view at the same logical element yields the written bits. -/
theorem matrix_four_views_agree (m : matrix_t) (r c : Fin 4) (v : Bits32) :
    (matrix_read_comp m r c = matrix_read_arr m ⟨4 * r.val + c.val, by omega⟩ ∧
     matrix_read_comp m r c = matrix_read_frow m r c ∧
     matrix_read_comp m r c = matrix_read_row m r c) ∧
    (matrix_read_comp (matrix_write_comp m r c v) r c = v ∧
     matrix_read_arr (matrix_write_comp m r c v) ⟨4 * r.val + c.val, by omega⟩ = v ∧
     matrix_read_frow (matrix_write_comp m r c v) r c = v ∧
     matrix_read_row (matrix_write_comp m r c v) r c = v) ∧
    (matrix_read_comp (matrix_write_arr m ⟨4 * r.val + c.val, by omega⟩ v) r c = v ∧
     matrix_read_arr (matrix_write_arr m ⟨4 * r.val + c.val, by omega⟩ v)
       ⟨4 * r.val + c.val, by omega⟩ = v ∧
     matrix_read_frow (matrix_write_arr m ⟨4 * r.val + c.val, by omega⟩ v) r c = v ∧
     matrix_read_row (matrix_write_arr m ⟨4 * r.val + c.val, by omega⟩ v) r c = v) ∧
    (matrix_read_comp (matrix_write_frow m r c v) r c = v ∧
     matrix_read_arr (matrix_write_frow m r c v) ⟨4 * r.val + c.val, by omega⟩ = v ∧
     matrix_read_frow (matrix_write_frow m r c v) r c = v ∧
     matrix_read_row (matrix_write_frow m r c v) r c = v) ∧
    (matrix_read_comp (matrix_write_row m r c v) r c = v ∧
     matrix_read_arr (matrix_write_row m r c v) ⟨4 * r.val + c.val, by omega⟩ = v ∧
     matrix_read_frow (matrix_write_row m r c v) r c = v ∧
     matrix_read_row (matrix_write_row m r c v) r c = v) := by
  simp [matrix_read_comp, matrix_read_arr, matrix_read_frow, matrix_read_row,
        matrix_write_comp, matrix_write_arr, matrix_write_frow, matrix_write_row,
        compIndex, arrIndex, frowIndex, rowLaneIndex, Function.update_same]

/-- Claim C2: the euler-order descriptor computed by the source macro
VECTOR_GETEULERORDER coincides with the nested shift-or formula of the
spec for every in-range tuple (axis < 3, the three flags < 2), decoding
an encoded in-range value recovers exactly the producing tuple, and the
24 named constants are the encodings of their declared tuples, so each
round-trips to its original tuple. -/
theorem euler_order_roundtrip (i p r f : Nat)
    (hi : i < 3) (hp : p < 2) (hr : r < 2) (hf : f < 2) :
    VECTOR_GETEULERORDER i p r f = eulerOrderSpecFormula i p r f ∧
    eulerDecodeAxis (VECTOR_GETEULERORDER i p r f) = i ∧
    eulerDecodeParity (VECTOR_GETEULERORDER i p r f) = p ∧
    eulerDecodeRepeat (VECTOR_GETEULERORDER i p r f) = r ∧
    eulerDecodeFrame (VECTOR_GETEULERORDER i p r f) = f ∧
    eulerNamedOrders = eulerNamedTuples.map
      (fun t => VECTOR_GETEULERORDER t.1 t.2.1 t.2.2.1 t.2.2.2) ∧
    eulerNamedTuples.all
      (fun t => eulerDecodeAxis (VECTOR_GETEULERORDER t.1 t.2.1 t.2.2.1 t.2.2.2) = t.1 &&
        (eulerDecodeParity (VECTOR_GETEULERORDER t.1 t.2.1 t.2.2.1 t.2.2.2) = t.2.1 &&
          (eulerDecodeRepeat (VECTOR_GETEULERORDER t.1 t.2.1 t.2.2.1 t.2.2.2) = t.2.2.1 &&
            eulerDecodeFrame (VECTOR_GETEULERORDER t.1 t.2.1 t.2.2.1 t.2.2.2) = t.2.2.2))) := by
  refine ⟨?_, ?_, ?_, ?_, ?_, by decide, by decide⟩ <;>
    (interval_cases i <;> interval_cases p <;> interval_cases r <;> interval_cases f <;> decide)

/-- Witness for claim C2 at the concrete in-range tuple (2, 1, 0, 1). -/
theorem euler_order_roundtrip_witness :
    (2 < 3 ∧ 1 < 2 ∧ 0 < 2 ∧ 1 < 2) ∧
    (VECTOR_GETEULERORDER 2 1 0 1 = eulerOrderSpecFormula 2 1 0 1 ∧
     eulerDecodeAxis (VECTOR_GETEULERORDER 2 1 0 1) = 2 ∧
     eulerDecodeParity (VECTOR_GETEULERORDER 2 1 0 1) = 1 ∧
     eulerDecodeRepeat (VECTOR_GETEULERORDER 2 1 0 1) = 0 ∧
     eulerDecodeFrame (VECTOR_GETEULERORDER 2 1 0 1) = 1 ∧
     eulerNamedOrders = eulerNamedTuples.map
       (fun t => VECTOR_GETEULERORDER t.1 t.2.1 t.2.2.1 t.2.2.2) ∧
     eulerNamedTuples.all
       (fun t => eulerDecodeAxis (VECTOR_GETEULERORDER t.1 t.2.1 t.2.2.1 t.2.2.2) = t.1 &&
         (eulerDecodeParity (VECTOR_GETEULERORDER t.1 t.2.1 t.2.2.1 t.2.2.2) = t.2.1 &&
           (eulerDecodeRepeat (VECTOR_GETEULERORDER t.1 t.2.1 t.2.2.1 t.2.2.2) = t.2.2.1 &&
             eulerDecodeFrame (VECTOR_GETEULERORDER t.1 t.2.1 t.2.2.1 t.2.2.2) = t.2.2.2)))) :=
  ⟨⟨by decide, by decide, by decide, by decide⟩,
   euler_order_roundtrip 2 1 0 1 (by decide) (by decide) (by decide) (by decide)⟩

/-- Claim C10: the 24 named euler-order constants are pairwise distinct
and take exactly the integer values 0 through 23, the encoding macro is
injective on the full domain of tuples, and EULER_DEFAULTORDER equals
EULER_XYZs, namely 0. -/
theorem euler_constants_distinct :
    eulerNamedOrders.Nodup ∧
    eulerNamedOrders.toFinset = Finset.range 24 ∧
    (eulerNamedTuples.map (fun t => VECTOR_GETEULERORDER t.1 t.2.1 t.2.2.1 t.2.2.2)).Nodup ∧
    eulerNamedTuples.Nodup ∧
    EULER_DEFAULTORDER = EULER_XYZs ∧
    EULER_DEFAULTORDER = 0 := by
  refine ⟨by decide, by decide, by decide, by decide, by decide, by decide⟩

/-- The four-lane vector value of types.h lines 59-64: four float32 lanes
x, y, z, w, modelled with real-number lanes. -/
@[ext]
structure vector_t where
  x : ℝ
  y : ℝ
  z : ℝ
  w : ℝ

/-- types.h line 95: typedef vector_t quaternion_t. -/
abbrev quaternion_t := vector_t

/-- Modelled from the spec: vector_length_sqr of the vector-primitive
collaborator module (sections 4.3 and 6; not under src/), the sum of the
squared components. -/
def vector_length_sqr (v : vector_t) : ℝ := v.x ^ 2 + v.y ^ 2 + v.z ^ 2 + v.w ^ 2

/-- Modelled from the spec: vector_length of the vector-primitive
collaborator module (not under src/), the square root of the sum of
squared components (section 4.3, normalize). -/
noncomputable def vector_length (v : vector_t) : ℝ := Real.sqrt (vector_length_sqr v)

/-- Modelled from the spec: the four-lane dot product of the
vector-primitive collaborator module (section 6; not under src/). -/
def vector_dot (a b : vector_t) : ℝ := a.x * b.x + a.y * b.y + a.z * b.z + a.w * b.w

/-- Modelled from the spec: componentwise scaling by a scalar from the
vector-primitive collaborator module (not under src/). -/
def vector_scale (v : vector_t) (s : ℝ) : vector_t := ⟨v.x * s, v.y * s, v.z * s, v.w * s⟩

/-- Modelled from the spec: the three-lane cross product of the
vector-primitive collaborator module (section 6; not under src/), with a
zero w lane. -/
def vector_cross3 (a b : vector_t) : vector_t :=
  ⟨a.y * b.z - a.z * b.y, a.z * b.x - a.x * b.z, a.x * b.y - a.y * b.x, 0⟩

/-- Modelled from the spec: componentwise vector addition from the
vector-primitive collaborator module (not under src/). -/
def vector_add (a b : vector_t) : vector_t := ⟨a.x + b.x, a.y + b.y, a.z + b.z, a.w + b.w⟩

/-- Modelled from the spec: quaternion_zero returns (0,0,0,0) (section
4.3; the backend implementation is not under src/, only the declaration
in quaternion.h lines 27-28). -/
def quaternion_zero : quaternion_t := ⟨0, 0, 0, 0⟩

/-- Modelled from the spec: quaternion_identity returns (0,0,0,1)
(section 4.3; the backend implementation is not under src/, only the
declaration in quaternion.h lines 30-31). -/
def quaternion_identity : quaternion_t := ⟨0, 0, 0, 1⟩

/-- Modelled from the spec: quaternion_scalar builds a quaternion from
four explicit components in (x,y,z,w) order (section 4.3; backend not
under src/). -/
def quaternion_scalar (x y z w : ℝ) : quaternion_t := ⟨x, y, z, w⟩

/-- Modelled from the spec: quaternion_conjugate negates the vector part,
q' = (-q.x, -q.y, -q.z, q.w) (section 4.3 and the declaration comment in
quaternion.h line 45; backend not under src/). -/
def quaternion_conjugate (q : quaternion_t) : quaternion_t := ⟨-q.x, -q.y, -q.z, q.w⟩

/-- Modelled from the spec: quaternion_inverse with reciprocal squared
length, following the declaration comment in quaternion.h lines 50-51:
the scalar is 1 / vector_length_sqr(q) and the result is
(q.x * -s, q.y * -s, q.z * -s, q.w * s) (backend not under src/). -/
noncomputable def quaternion_inverse (q : quaternion_t) : quaternion_t :=
  ⟨q.x * -(1 / vector_length_sqr q), q.y * -(1 / vector_length_sqr q),
   q.z * -(1 / vector_length_sqr q), q.w * (1 / vector_length_sqr q)⟩

/-- Modelled from the spec: quaternion_neg negates every component
(section 4.3; backend not under src/). -/
def quaternion_neg (q : quaternion_t) : quaternion_t := ⟨-q.x, -q.y, -q.z, -q.w⟩

/-- Modelled from the spec: quaternion_normalize divides every component
by the quaternion length (section 4.3; backend not under src/). -/
noncomputable def quaternion_normalize (q : quaternion_t) : quaternion_t :=
  ⟨q.x / vector_length q, q.y / vector_length q, q.z / vector_length q, q.w / vector_length q⟩

/-- Modelled from the spec: quaternion_mul is the Hamilton product
(section 4.3 and the glossary; backend not under src/), composing so that
the product applied as a rotation performs q1 then q0. -/
def quaternion_mul (q0 q1 : quaternion_t) : quaternion_t :=
  ⟨q0.w * q1.x + q0.x * q1.w + q0.y * q1.z - q0.z * q1.y,
   q0.w * q1.y - q0.x * q1.z + q0.y * q1.w + q0.z * q1.x,
   q0.w * q1.z + q0.x * q1.y - q0.y * q1.x + q0.z * q1.w,
   q0.w * q1.w - q0.x * q1.x - q0.y * q1.y - q0.z * q1.z⟩

/-- Modelled from the spec: quaternion_add is componentwise addition
(section 4.3; backend not under src/). -/
def quaternion_add (q0 q1 : quaternion_t) : quaternion_t := vector_add q0 q1

/-- Modelled from the spec: quaternion_sub is componentwise subtraction
(section 4.3; backend not under src/). -/
def quaternion_sub (q0 q1 : quaternion_t) : quaternion_t :=
  ⟨q0.x - q1.x, q0.y - q1.y, q0.z - q1.z, q0.w - q1.w⟩

/-- The numeric tolerance the spec uses for approximate equalities
(section 8 states 1e-5). -/
def qtolerance : ℝ := 1e-5

/-- Componentwise approximate equality of two four-lane values within
qtolerance. -/
def qapprox (a b : vector_t) : Prop :=
  |a.x - b.x| ≤ qtolerance ∧ |a.y - b.y| ≤ qtolerance ∧
  |a.z - b.z| ≤ qtolerance ∧ |a.w - b.w| ≤ qtolerance

lemma qapprox_of_eq {a b : vector_t} (h : a = b) : qapprox a b := by
  subst h
  refine ⟨?_, ?_, ?_, ?_⟩ <;> simp [qtolerance] <;> norm_num

lemma vector_length_sqr_nonneg (v : vector_t) : 0 ≤ vector_length_sqr v := by
  unfold vector_length_sqr; positivity

lemma vector_length_sq_eq (v : vector_t) : vector_length v ^ 2 = vector_length_sqr v := by
  unfold vector_length
  exact Real.sq_sqrt (vector_length_sqr_nonneg v)

lemma vector_dot_self (q : vector_t) : vector_dot q q = vector_length_sqr q := by
  unfold vector_dot vector_length_sqr; ring

lemma quaternion_normalize_unit {q : quaternion_t} (h : vector_length_sqr q = 1) :
    quaternion_normalize q = q := by
  unfold quaternion_normalize vector_length
  rw [h, Real.sqrt_one]
  ext <;> simp

/-- Claim C3: quaternion_conjugate negates exactly the vector part,
(x, y, z, w) goes to (-x, -y, -z, w), and conjugation is an involution:
conjugating twice returns the original quaternion exactly. -/
theorem quaternion_conjugate_involution (q : quaternion_t) :
    quaternion_conjugate q = ⟨-q.x, -q.y, -q.z, q.w⟩ ∧
    quaternion_conjugate (quaternion_conjugate q) = q := by
  refine ⟨rfl, ?_⟩
  unfold quaternion_conjugate
  ext <;> simp

/-- Claim C4: for every quaternion with nonzero squared length,
quaternion_inverse scales the negated vector part and the scalar part by
the reciprocal squared length s = 1 / (x^2 + y^2 + z^2 + w^2), and for a
unit quaternion the inverse approximates the conjugate within 1e-5. -/
theorem quaternion_inverse_correct (q : quaternion_t) (_hs : vector_length_sqr q ≠ 0) :
    quaternion_inverse q =
      ⟨-q.x * (1 / vector_length_sqr q), -q.y * (1 / vector_length_sqr q),
       -q.z * (1 / vector_length_sqr q), q.w * (1 / vector_length_sqr q)⟩ ∧
    (vector_length_sqr q = 1 →
      qapprox (quaternion_inverse q) (quaternion_conjugate q)) := by
  constructor
  · unfold quaternion_inverse
    ext <;> ring
  · intro h1
    apply qapprox_of_eq
    unfold quaternion_inverse quaternion_conjugate
    rw [h1]
    ext <;> simp

/-- Witness for claim C4 at the concrete unit quaternion
(3/5, 4/5, 0, 0). -/
theorem quaternion_inverse_correct_witness :
    vector_length_sqr (⟨3 / 5, 4 / 5, 0, 0⟩ : quaternion_t) = 1 ∧
    qapprox (quaternion_inverse ⟨3 / 5, 4 / 5, 0, 0⟩)
      (quaternion_conjugate ⟨3 / 5, 4 / 5, 0, 0⟩) := by
  have h1 : vector_length_sqr (⟨3 / 5, 4 / 5, 0, 0⟩ : quaternion_t) = 1 := by
    unfold vector_length_sqr; norm_num
  exact ⟨h1, (quaternion_inverse_correct ⟨3 / 5, 4 / 5, 0, 0⟩ (by rw [h1]; norm_num)).2 h1⟩

/-- Claim C5: quaternion_identity is the literal quaternion (0,0,0,1) and
is a two-sided multiplicative identity for quaternion_mul within
tolerance. -/
theorem quaternion_identity_is_identity :
    quaternion_identity = ⟨0, 0, 0, 1⟩ ∧
    ∀ q : quaternion_t,
      qapprox (quaternion_mul quaternion_identity q) q ∧
      qapprox (quaternion_mul q quaternion_identity) q := by
  refine ⟨rfl, fun q => ⟨?_, ?_⟩⟩ <;>
    (apply qapprox_of_eq; unfold quaternion_mul quaternion_identity; ext <;> simp)

/-- Claim C6: the Hamilton product quaternion_mul is associative within
floating-point tolerance (it is exactly associative in the real-number
model). -/
theorem quaternion_mul_assoc (q0 q1 q2 : quaternion_t) :
    qapprox (quaternion_mul (quaternion_mul q0 q1) q2)
      (quaternion_mul q0 (quaternion_mul q1 q2)) := by
  apply qapprox_of_eq
  unfold quaternion_mul
  ext <;> ring

lemma vector_length_nonneg (v : vector_t) : 0 ≤ vector_length v :=
  Real.sqrt_nonneg _

lemma vector_length_sqr_normalize (q : quaternion_t) (h : 0 < vector_length q) :
    vector_length_sqr (quaternion_normalize q) = 1 := by
  have hs : 0 < vector_length_sqr q := by
    have := Real.sqrt_pos.mp (by simpa [vector_length] using h)
    exact this
  have hl2 : vector_length q ^ 2 = vector_length_sqr q := vector_length_sq_eq q
  have hlne : vector_length q ≠ 0 := ne_of_gt h
  unfold quaternion_normalize vector_length_sqr
  field_simp
  unfold vector_length_sqr at hl2
  nlinarith [hl2]

/-- Claim C7: for every quaternion of strictly positive length,
quaternion_normalize divides every component by the length, and the
length of the normalized quaternion approximates 1 within tolerance. -/
theorem quaternion_normalize_length (q : quaternion_t) (h : 0 < vector_length q) :
    quaternion_normalize q =
      ⟨q.x / vector_length q, q.y / vector_length q,
       q.z / vector_length q, q.w / vector_length q⟩ ∧
    |vector_length (quaternion_normalize q) - 1| ≤ qtolerance := by
  refine ⟨rfl, ?_⟩
  have h1 : vector_length (quaternion_normalize q) = 1 := by
    unfold vector_length
    rw [vector_length_sqr_normalize q h, Real.sqrt_one]
  rw [h1]
  simp [qtolerance]
  norm_num

/-- Witness for claim C7 at the concrete quaternion (0, 0, 0, 2). -/
theorem quaternion_normalize_length_witness :
    0 < vector_length (⟨0, 0, 0, 2⟩ : quaternion_t) ∧
    |vector_length (quaternion_normalize ⟨0, 0, 0, 2⟩) - 1| ≤ qtolerance := by
  have h : 0 < vector_length (⟨0, 0, 0, 2⟩ : quaternion_t) := by
    unfold vector_length vector_length_sqr
    apply Real.sqrt_pos.mpr
    norm_num
  exact ⟨h, (quaternion_normalize_length ⟨0, 0, 0, 2⟩ h).2⟩

/-- Modelled from the spec: the interpolation destination of slerp
(section 4.3; the backend implementation is not under src/): if the dot
product of the two inputs is negative the second input is negated so the
shorter arc is taken. -/
noncomputable def slerpDest (q0 q1 : quaternion_t) : quaternion_t :=
  if vector_dot q0 q1 < 0 then quaternion_neg q1 else q1

/-- Modelled from the spec: the cosine of the angle used by slerp, made
nonnegative by the same shorter-arc negation (section 4.3; backend not
under src/). -/
noncomputable def slerpCos (q0 q1 : quaternion_t) : ℝ :=
  if vector_dot q0 q1 < 0 then -(vector_dot q0 q1) else vector_dot q0 q1

/-- Modelled from the spec: quaternion_slerp, spherical linear
interpolation between two unit quaternions (section 4.3; backend not
under src/): after the shorter-arc adjustment, nearly parallel inputs
fall back to linear interpolation plus renormalization (threshold
constant 0.95 chosen here, the spec names no number), otherwise the
spherical formula with angle arccos of the adjusted dot product and
sine-ratio coefficients is used. -/
noncomputable def quaternion_slerp (q0 q1 : quaternion_t) (factor : ℝ) : quaternion_t :=
  if 0.95 < slerpCos q0 q1 then
    quaternion_normalize
      (quaternion_add (vector_scale q0 (1 - factor)) (vector_scale (slerpDest q0 q1) factor))
  else
    quaternion_add
      (vector_scale q0
        (Real.sin ((1 - factor) * Real.arccos (slerpCos q0 q1)) /
          Real.sin (Real.arccos (slerpCos q0 q1))))
      (vector_scale (slerpDest q0 q1)
        (Real.sin (factor * Real.arccos (slerpCos q0 q1)) /
          Real.sin (Real.arccos (slerpCos q0 q1))))

lemma slerpCos_nonneg (q0 q1 : quaternion_t) : 0 ≤ slerpCos q0 q1 := by
  unfold slerpCos
  split_ifs with h
  · linarith
  · linarith [not_lt.mp h]

lemma slerp_sin_ne_zero {q0 q1 : quaternion_t} (h : ¬ 0.95 < slerpCos q0 q1) :
    Real.sin (Real.arccos (slerpCos q0 q1)) ≠ 0 := by
  have h0 : 0 ≤ slerpCos q0 q1 := slerpCos_nonneg q0 q1
  have h1 : slerpCos q0 q1 ≤ 0.95 := not_lt.mp h
  rw [Real.sin_arccos]
  have : (0 : ℝ) < 1 - slerpCos q0 q1 ^ 2 := by nlinarith
  exact ne_of_gt (Real.sqrt_pos.mpr this)

lemma quaternion_slerp_zero {q0 q1 : quaternion_t} (h0 : vector_length_sqr q0 = 1) :
    quaternion_slerp q0 q1 0 = q0 := by
  unfold quaternion_slerp
  split_ifs with hc
  · have harg : quaternion_add (vector_scale q0 (1 - 0)) (vector_scale (slerpDest q0 q1) 0) = q0 := by
      unfold quaternion_add vector_add vector_scale
      ext <;> simp
    rw [harg]
    exact quaternion_normalize_unit h0
  · have hs := slerp_sin_ne_zero hc
    have h1 : Real.sin ((1 - 0) * Real.arccos (slerpCos q0 q1)) /
        Real.sin (Real.arccos (slerpCos q0 q1)) = 1 := by
      rw [sub_zero, one_mul]
      exact div_self hs
    have h2 : Real.sin (0 * Real.arccos (slerpCos q0 q1)) /
        Real.sin (Real.arccos (slerpCos q0 q1)) = 0 := by
      rw [zero_mul, Real.sin_zero, zero_div]
    rw [h1, h2]
    unfold quaternion_add vector_add vector_scale
    ext <;> simp

lemma quaternion_slerp_one {q0 q1 : quaternion_t} (h1 : vector_length_sqr q1 = 1)
    (hd : 0 ≤ vector_dot q0 q1) : quaternion_slerp q0 q1 1 = q1 := by
  have hdest : slerpDest q0 q1 = q1 := by
    unfold slerpDest
    rw [if_neg (not_lt.mpr hd)]
  unfold quaternion_slerp
  rw [hdest]
  split_ifs with hc
  · have harg : quaternion_add (vector_scale q0 (1 - 1)) (vector_scale q1 1) = q1 := by
      unfold quaternion_add vector_add vector_scale
      ext <;> simp
    rw [harg]
    exact quaternion_normalize_unit h1
  · have hs := slerp_sin_ne_zero hc
    have ha : Real.sin ((1 - 1) * Real.arccos (slerpCos q0 q1)) /
        Real.sin (Real.arccos (slerpCos q0 q1)) = 0 := by
      rw [sub_self, zero_mul, Real.sin_zero, zero_div]
    have hb : Real.sin (1 * Real.arccos (slerpCos q0 q1)) /
        Real.sin (Real.arccos (slerpCos q0 q1)) = 1 := by
      rw [one_mul]
      exact div_self hs
    rw [ha, hb]
    unfold quaternion_add vector_add vector_scale
    ext <;> simp

lemma quaternion_slerp_same {q : quaternion_t} (h : vector_length_sqr q = 1) (t : ℝ) :
    quaternion_slerp q q t = q := by
  have hdot : vector_dot q q = 1 := by rw [vector_dot_self, h]
  have hcos : slerpCos q q = 1 := by
    unfold slerpCos
    rw [hdot]
    norm_num
  have hdest : slerpDest q q = q := by
    unfold slerpDest
    rw [hdot]
    norm_num
  unfold quaternion_slerp
  rw [hcos, hdest, if_pos (by norm_num)]
  have harg : quaternion_add (vector_scale q (1 - t)) (vector_scale q t) = q := by
    unfold quaternion_add vector_add vector_scale
    ext <;> ring
  rw [harg]
  exact quaternion_normalize_unit h

/-- Claim C8 (amended): for unit quaternions q0 and q1, slerp at factor 0
approximates q0; slerp at factor 1 approximates q1 whenever the dot
product of q0 and q1 is nonnegative (when it is negative the shorter-arc
rule negates the destination, so the result is the negation of q1); and
for a unit quaternion q and any factor t in [0,1], slerp of q with itself
approximates q. -/
theorem quaternion_slerp_endpoints (q0 q1 : quaternion_t)
    (h0 : vector_length_sqr q0 = 1) (h1 : vector_length_sqr q1 = 1) :
    qapprox (quaternion_slerp q0 q1 0) q0 ∧
    (0 ≤ vector_dot q0 q1 → qapprox (quaternion_slerp q0 q1 1) q1) ∧
    ∀ t : ℝ, 0 ≤ t → t ≤ 1 → qapprox (quaternion_slerp q0 q0 t) q0 :=
  ⟨qapprox_of_eq (quaternion_slerp_zero h0),
   fun hd => qapprox_of_eq (quaternion_slerp_one h1 hd),
   fun t _ _ => qapprox_of_eq (quaternion_slerp_same h0 t)⟩

/-- Counterexample to claim C8 as stated: at the unit quaternions
q0 = (0,0,0,1) and q1 = (0,0,0,-1) the dot product is negative, the
shorter-arc rule negates the destination, and slerp at factor 1 returns
(0,0,0,1), which is not within tolerance of q1. -/
theorem quaternion_slerp_endpoint_cex :
    vector_length_sqr (⟨0, 0, 0, 1⟩ : quaternion_t) = 1 ∧
    vector_length_sqr (⟨0, 0, 0, -1⟩ : quaternion_t) = 1 ∧
    ¬ qapprox (quaternion_slerp ⟨0, 0, 0, 1⟩ ⟨0, 0, 0, -1⟩ 1) ⟨0, 0, 0, -1⟩ := by
  have hdot : vector_dot (⟨0, 0, 0, 1⟩ : quaternion_t) ⟨0, 0, 0, -1⟩ = -1 := by
    unfold vector_dot; norm_num
  have hcos : slerpCos (⟨0, 0, 0, 1⟩ : quaternion_t) ⟨0, 0, 0, -1⟩ = 1 := by
    unfold slerpCos; rw [hdot]; norm_num
  have hdest : slerpDest (⟨0, 0, 0, 1⟩ : quaternion_t) ⟨0, 0, 0, -1⟩ = ⟨0, 0, 0, 1⟩ := by
    unfold slerpDest; rw [hdot]
    norm_num [quaternion_neg]
  have hs : quaternion_slerp (⟨0, 0, 0, 1⟩ : quaternion_t) ⟨0, 0, 0, -1⟩ 1 = ⟨0, 0, 0, 1⟩ := by
    unfold quaternion_slerp
    rw [hcos, hdest, if_pos (by norm_num)]
    have harg : quaternion_add (vector_scale ⟨0, 0, 0, 1⟩ (1 - 1)) (vector_scale ⟨0, 0, 0, 1⟩ 1) =
        (⟨0, 0, 0, 1⟩ : quaternion_t) := by
      unfold quaternion_add vector_add vector_scale
      ext <;> norm_num
    rw [harg]
    exact quaternion_normalize_unit (by unfold vector_length_sqr; norm_num)
  refine ⟨by unfold vector_length_sqr; norm_num, by unfold vector_length_sqr; norm_num, ?_⟩
  rw [hs]
  rintro ⟨-, -, -, h4⟩
  simp only [qtolerance] at h4
  norm_num at h4

/-- Witness for the amended claim C8 at the concrete unit quaternions
(0,0,0,1) and (1,0,0,0), whose dot product is 0, with factor 1/2 for the
same-input part. -/
theorem quaternion_slerp_endpoints_witness :
    (vector_length_sqr (⟨0, 0, 0, 1⟩ : quaternion_t) = 1 ∧
     vector_length_sqr (⟨1, 0, 0, 0⟩ : quaternion_t) = 1 ∧
     0 ≤ vector_dot (⟨0, 0, 0, 1⟩ : quaternion_t) ⟨1, 0, 0, 0⟩ ∧
     (0 : ℝ) ≤ 1 / 2 ∧ (1 : ℝ) / 2 ≤ 1) ∧
    qapprox (quaternion_slerp ⟨0, 0, 0, 1⟩ ⟨1, 0, 0, 0⟩ 0) ⟨0, 0, 0, 1⟩ ∧
    qapprox (quaternion_slerp ⟨0, 0, 0, 1⟩ ⟨1, 0, 0, 0⟩ 1) ⟨1, 0, 0, 0⟩ ∧
    qapprox (quaternion_slerp ⟨0, 0, 0, 1⟩ ⟨0, 0, 0, 1⟩ (1 / 2)) ⟨0, 0, 0, 1⟩ := by
  have h0 : vector_length_sqr (⟨0, 0, 0, 1⟩ : quaternion_t) = 1 := by
    unfold vector_length_sqr; norm_num
  have h1 : vector_length_sqr (⟨1, 0, 0, 0⟩ : quaternion_t) = 1 := by
    unfold vector_length_sqr; norm_num
  have hd : 0 ≤ vector_dot (⟨0, 0, 0, 1⟩ : quaternion_t) ⟨1, 0, 0, 0⟩ := by
    unfold vector_dot; norm_num
  obtain ⟨ha, hb, hc⟩ := quaternion_slerp_endpoints ⟨0, 0, 0, 1⟩ ⟨1, 0, 0, 0⟩ h0 h1
  exact ⟨⟨h0, h1, hd, by norm_num, by norm_num⟩, ha, hb hd,
    hc (1 / 2) (by norm_num) (by norm_num)⟩

/-- Modelled from the spec: quaternion_rotate (section 4.3; backend not
under src/): the vector argument is treated as the pure directional
vector (x, y, z, 0) and rotated with the optimized double-cross-product
form equivalent to the product of q, (0,v) and the conjugate of q: with
qv the vector part of q and t twice the cross product of qv and v, the
result is v + w t + qv x t, a pure directional vector with zero w
lane. -/
def quaternion_rotate (q : quaternion_t) (v : vector_t) : vector_t :=
  vector_add
    (vector_add ⟨v.x, v.y, v.z, 0⟩
      (vector_scale (vector_scale (vector_cross3 ⟨q.x, q.y, q.z, 0⟩ v) 2) q.w))
    (vector_cross3 ⟨q.x, q.y, q.z, 0⟩ (vector_scale (vector_cross3 ⟨q.x, q.y, q.z, 0⟩ v) 2))

lemma quaternion_rotate_length_sqr (q : quaternion_t) (v : vector_t)
    (hq : vector_length_sqr q = 1) (hv : v.w = 0) :
    vector_length_sqr (quaternion_rotate q v) = vector_length_sqr v := by
  obtain ⟨x, y, z, w⟩ := q
  obtain ⟨a, b, c, d⟩ := v
  simp only at hv
  subst hv
  simp only [vector_length_sqr] at hq ⊢
  simp only [quaternion_rotate, vector_add, vector_cross3, vector_scale]
  linear_combination (4 * ((y * c - z * b) ^ 2 + (z * a - x * c) ^ 2 + (x * b - y * a) ^ 2)) * hq

/-- Claim C9 (amended): quaternion_rotate treats its vector argument as
the pure directional vector (x, y, z, 0) and returns a vector with zero w
lane; and for every unit quaternion q and every vector v whose w lane is
zero, the length of the rotated vector approximates the length of v
within tolerance (a nonzero input w lane is dropped by the rotation, so
the four-lane length is not preserved for such inputs). -/
theorem quaternion_rotate_pure_length (q : quaternion_t) (v : vector_t) :
    ((quaternion_rotate q v).w = 0 ∧
     quaternion_rotate q v = quaternion_rotate q ⟨v.x, v.y, v.z, 0⟩) ∧
    (vector_length_sqr q = 1 → v.w = 0 →
      |vector_length (quaternion_rotate q v) - vector_length v| ≤ qtolerance) := by
  refine ⟨⟨?_, ?_⟩, ?_⟩
  · simp [quaternion_rotate, vector_add, vector_cross3, vector_scale]
  · rfl
  · intro hq hv
    have hkey := quaternion_rotate_length_sqr q v hq hv
    have hlen : vector_length (quaternion_rotate q v) = vector_length v := by
      unfold vector_length
      rw [hkey]
    rw [hlen, sub_self, abs_zero]
    unfold qtolerance
    norm_num

/-- Counterexample to claim C9 as stated: at the unit quaternion
(0,0,0,1) and the vector (0,0,0,1), whose whole content sits in the w
lane, the rotation returns the zero vector of length 0 while the input
has length 1, so the length is not preserved within tolerance for every
vector. -/
theorem quaternion_rotate_length_cex :
    vector_length_sqr (⟨0, 0, 0, 1⟩ : quaternion_t) = 1 ∧
    ¬ |vector_length (quaternion_rotate ⟨0, 0, 0, 1⟩ ⟨0, 0, 0, 1⟩) -
        vector_length ⟨0, 0, 0, 1⟩| ≤ qtolerance := by
  refine ⟨by unfold vector_length_sqr; norm_num, ?_⟩
  have h1 : quaternion_rotate (⟨0, 0, 0, 1⟩ : quaternion_t) ⟨0, 0, 0, 1⟩ = ⟨0, 0, 0, 0⟩ := by
    unfold quaternion_rotate vector_add vector_cross3 vector_scale
    ext <;> norm_num
  have h2 : vector_length (⟨0, 0, 0, 0⟩ : vector_t) = 0 := by
    unfold vector_length vector_length_sqr
    norm_num
  have h3 : vector_length (⟨0, 0, 0, 1⟩ : vector_t) = 1 := by
    unfold vector_length vector_length_sqr
    norm_num
  rw [h1, h2, h3]
  unfold qtolerance
  norm_num

/-- Witness for the amended claim C9 at the concrete unit quaternion
(0,0,0,1) and the pure directional vector (1,2,2,0). -/
theorem quaternion_rotate_pure_length_witness :
    vector_length_sqr (⟨0, 0, 0, 1⟩ : quaternion_t) = 1 ∧
    (⟨1, 2, 2, 0⟩ : vector_t).w = 0 ∧
    (quaternion_rotate ⟨0, 0, 0, 1⟩ ⟨1, 2, 2, 0⟩).w = 0 ∧
    |vector_length (quaternion_rotate ⟨0, 0, 0, 1⟩ ⟨1, 2, 2, 0⟩) -
      vector_length ⟨1, 2, 2, 0⟩| ≤ qtolerance := by
  have hq : vector_length_sqr (⟨0, 0, 0, 1⟩ : quaternion_t) = 1 := by
    unfold vector_length_sqr; norm_num
  have hv : (⟨1, 2, 2, 0⟩ : vector_t).w = 0 := rfl
  obtain ⟨⟨hw, -⟩, hlen⟩ := quaternion_rotate_pure_length ⟨0, 0, 0, 1⟩ ⟨1, 2, 2, 0⟩
  exact ⟨hq, hv, hw, hlen hq hv⟩
